import Mathlib

/-!
Verification of the photo-processing pipeline: the message consumer
(message_consumer.py) and the web producer/query surface (web.py).

The code is embedded shallowly: the relational store is a pair of lists of
rows, each commit is an element of an explicit commit trace, and the
external transport, the image decoder and the thumbnail file I/O are oracles
passed in as an environment record.  Machine conversions (the 16-byte uuid
wire encoding) are modelled on Nat with explicit mod 256 arithmetic.
-/

namespace WaldoPhotos

/-- Photo lifecycle status, from the enum PhotoStatusEnum. -/
inductive PhotoStatus
  | pending
  | completed
  | processing
  | failed
deriving DecidableEq, Repr

/-- A row of the photos table (class Photos).  Identifiers are 128-bit uuid
values modelled as Nat; timestamps are modelled as Nat. -/
structure Photos where
  uuid : Nat
  url : String
  status : PhotoStatus
  created_at : Nat
deriving DecidableEq, Repr

/-- A row of the photo_thumbnails table (class PhotoThumbnails), as built by
its constructor: photo_uuid, width, height, url. -/
structure PhotoThumbnails where
  photo_uuid : Nat
  width : Nat
  height : Nat
  url : String
deriving DecidableEq, Repr

/-- The committed contents of the relational store. -/
structure DB where
  photos : List Photos
  thumbnails : List PhotoThumbnails
deriving DecidableEq, Repr

/-- Photos.query.get(photo_uuid): the row with the given primary key. -/
def DB.getPhoto (db : DB) (id : Nat) : Option Photos :=
  db.photos.find? (fun p => p.uuid == id)

/-- Assigning photo.status and committing: the row with the given key gets
the new status. -/
def DB.setStatus (db : DB) (id : Nat) (s : PhotoStatus) : DB :=
  { db with
    photos := db.photos.map (fun p => if p.uuid == id then { p with status := s } else p) }

/-- db.session.add(photo_thumbnail) followed by commit: a new row. -/
def DB.addThumbnail (db : DB) (t : PhotoThumbnails) : DB :=
  { db with thumbnails := db.thumbnails ++ [t] }

/-- What the HTTP transport (requests.get) reports for one request: a
response with a status code and an optional body, a connection error
(requests.exceptions.ConnectionError), or a protocol-level error
(requests.HTTPError). -/
inductive HttpOutcome
  | response (statusCode : Nat) (content : Option (List Nat))
  | connectionError
  | httpError
deriving DecidableEq, Repr

/-- The ImgFileDownloadError raised by download_img, keeping what the code
put in it: the status-code message from the in-try raise, or the wrapped
transport exception from the except clause. -/
inductive DownloadErr
  | badResponse (statusCode : Nat)
  | wrappedTransport (protocolLevel : Bool)
deriving DecidableEq, Repr

/-- download_img from message_consumer.py.  The code raises
ImgFileDownloadError when req.status_code is not 200 or req.content is None;
a requests.HTTPError or requests.exceptions.ConnectionError is caught and
re-raised wrapped; otherwise the body bytes are returned as io.BytesIO. -/
def download_img (resp : HttpOutcome) : Except DownloadErr (List Nat) :=
  match resp with
  | .response code content =>
      if code ≠ 200 ∨ content = none then Except.error (.badResponse code)
      else Except.ok (content.getD [])
  | .connectionError => Except.error (.wrappedTransport false)
  | .httpError => Except.error (.wrappedTransport true)

/-- THUMBNAIL_DIMENSIONS = 320, 320. -/
def THUMBNAIL_DIMENSIONS : Nat × Nat := (320, 320)

/-- THUMBNAIL_DIR constant of message_consumer.py. -/
def THUMBNAIL_DIR : String := "/root/waldo-app-thumbs"

/-- THUMBNAIL_FILE_EXT constant of message_consumer.py. -/
def THUMBNAIL_FILE_EXT : String := ".jpg"

/-- The dimension computation of PIL Image.thumbnail(size), from the Pillow
source the code docstring links (the pre-7.0 algorithm, used with
Image.ANTIALIAS): each axis that exceeds the bound is clamped to it and the
other axis is scaled by int(max(y * size0 / x, 1)).  For dimensions in the
range of the SmallInteger columns the float division truncates to the exact
rational floor, so Nat division models it. -/
def pil_thumbnail_size (size : Nat × Nat) (dims : Nat × Nat) : Nat × Nat :=
  let step1 :=
    if dims.1 > size.1 then (size.1, max (dims.2 * size.1 / dims.1) 1) else dims
  if step1.2 > size.2 then (max (step1.1 * size.2 / step1.2) 1, size.2) else step1

/-- The parts of Pillow and the filesystem that create_img_thumbnail touches:
decoding the downloaded bytes to an image (exposing its pixel dimensions),
and whether the save plus re-read of the thumbnail file succeeds.  The JPEG
save keeps pixel dimensions, so the re-read of the stored artifact reports
the resized dimensions. -/
structure ImgEnv where
  decode : List Nat → Option (Nat × Nat)
  ioOk : Bool

/-- The saved thumbnail location for a photo uuid. -/
def thumbnail_url_of (photo_uuid : Nat) : String :=
  THUMBNAIL_DIR ++ "/" ++ toString photo_uuid ++ ".thumbnail" ++ THUMBNAIL_FILE_EXT

/-- The ImgThumbnailError raised by create_img_thumbnail. -/
inductive ThumbErr
  | imgThumbnailError
deriving DecidableEq, Repr

/-- create_img_thumbnail from message_consumer.py: open the image (an
IOError here means undecodable bytes), shrink it with Image.thumbnail to fit
THUMBNAIL_DIMENSIONS, save it, re-open the saved file to learn the actual
dimensions, and build the PhotoThumbnails row.  Any IOError in the block is
re-raised as ImgThumbnailError. -/
def create_img_thumbnail (env : ImgEnv) (img_content : List Nat) (photo_uuid : Nat) :
    Except ThumbErr PhotoThumbnails :=
  match env.decode img_content with
  | none => Except.error .imgThumbnailError
  | some dims =>
      if env.ioOk then
        Except.ok
          ⟨photo_uuid, (pil_thumbnail_size THUMBNAIL_DIMENSIONS dims).1,
            (pil_thumbnail_size THUMBNAIL_DIMENSIONS dims).2, thumbnail_url_of photo_uuid⟩
      else Except.error .imgThumbnailError

/-- The external collaborators one orchestrator run sees: the transport
response per url, and the image environment. -/
structure Env where
  http : String → HttpOutcome
  img : ImgEnv

/-- The original cause a ProcessPhotoError wraps. -/
inductive PipelineErr
  | download (e : DownloadErr)
  | thumbnail (e : ThumbErr)
deriving DecidableEq, Repr

/-- The errors process_photo_message can raise. -/
inductive ProcessErr
  | noPhotoRecordFound
  | processPhotoError (cause : PipelineErr)
deriving DecidableEq, Repr

/-- One run of process_photo_message: its outcome, the committed database
states in commit order, and the final committed state. -/
structure RunResult where
  result : Except ProcessErr Unit
  commits : List DB
  finalDb : DB
deriving Repr

/-- process_photo_message from message_consumer.py: load the row (raise
NoPhotoRecordFoundError when absent), set status processing and commit,
download, create the thumbnail, add the row and commit, set status completed
and commit; on ImgFileDownloadError or ImgThumbnailError set status failed,
commit, and raise ProcessPhotoError wrapping the cause. -/
def process_photo_message (env : Env) (db : DB) (photo_uuid : Nat) : RunResult :=
  match db.getPhoto photo_uuid with
  | none => ⟨Except.error .noPhotoRecordFound, [], db⟩
  | some photo =>
      let dbA := db.setStatus photo_uuid .processing
      match download_img (env.http photo.url) with
      | .error e =>
          ⟨Except.error (.processPhotoError (.download e)),
            [dbA, dbA.setStatus photo_uuid .failed], dbA.setStatus photo_uuid .failed⟩
      | .ok img_content =>
          match create_img_thumbnail env.img img_content photo_uuid with
          | .error e =>
              ⟨Except.error (.processPhotoError (.thumbnail e)),
                [dbA, dbA.setStatus photo_uuid .failed], dbA.setStatus photo_uuid .failed⟩
          | .ok t =>
              ⟨Except.ok (),
                [dbA, dbA.addThumbnail t, (dbA.addThumbnail t).setStatus photo_uuid .completed],
                (dbA.addThumbnail t).setStatus photo_uuid .completed⟩

/-- uuid.bytes: the canonical 16-byte big-endian encoding of a uuid value. -/
def uuid_bytes (n : Nat) : List Nat :=
  (List.range 16).map (fun i => n / 256 ^ (15 - i) % 256)

/-- The errors that escape the consumer loop uncaught. -/
inductive ConsumeErr
  | valueError (body : List Nat)
  | unhandled (e : ProcessErr)
deriving DecidableEq, Repr

/-- uuid.UUID(bytes=body): a ValueError unless the body is exactly 16 bytes,
otherwise the big-endian value of the bytes. -/
def uuid_from_bytes (body : List Nat) : Except ConsumeErr Nat :=
  if body.length = 16 then Except.ok (body.foldl (fun acc b => acc * 256 + b) 0)
  else Except.error (.valueError body)

/-- What a consumer-loop run leaves behind: the message bodies acknowledged
in order, the photo uuids the orchestrator was invoked for in order, the
final committed database state, and the uncaught error that ended the loop,
when one did. -/
structure ConsumeResult where
  acked : List (List Nat)
  invoked : List Nat
  db : DB
  err : Option ConsumeErr
deriving DecidableEq, Repr

/-- The message loop of init_message_consumer: for each delivered body,
decode it with uuid.UUID(bytes=body), call process_photo_message, then
basic_ack.  The loop body has no exception handler, so a ValueError from
decoding or an error from process_photo_message propagates, ending the loop
before the acknowledgment of that message. -/
def init_message_consumer (env : Env) : DB → List (List Nat) → ConsumeResult
  | db, [] => ⟨[], [], db, none⟩
  | db, body :: rest =>
      match uuid_from_bytes body with
      | .error e => ⟨[], [], db, some e⟩
      | .ok pid =>
          match (process_photo_message env db pid).result with
          | .error e =>
              ⟨[], [pid], (process_photo_message env db pid).finalDb, some (.unhandled e)⟩
          | .ok _ =>
              let rest' := init_message_consumer env (process_photo_message env db pid).finalDb rest
              ⟨body :: rest'.acked, pid :: rest'.invoked, rest'.db, rest'.err⟩

/-- process_photos from web.py: publish one message per uploaded photo uuid,
in order, each body the 16 raw bytes of the uuid. -/
def process_photos (uuids : List Nat) : List (List Nat) :=
  uuids.map uuid_bytes

/-- The created_at ordering the pending query sorts by. -/
def byCreatedAt (a b : Photos) : Prop := a.created_at ≤ b.created_at

instance : DecidableRel byCreatedAt := fun a b => Nat.decLe a.created_at b.created_at

instance : IsTotal Photos byCreatedAt := ⟨fun a b => Nat.le_total a.created_at b.created_at⟩

instance : IsTrans Photos byCreatedAt := ⟨fun _ _ _ => Nat.le_trans⟩

/-- The query of get_pending_photos_handler:
Photos.query.filter_by(status=pending).order_by(Photos.created_at).all(). -/
def get_pending_photos (photos : List Photos) : List Photos :=
  List.insertionSort byCreatedAt (photos.filter (fun p => p.status == PhotoStatus.pending))

/-- Photos.to_dict of web.py: the exposed fields uuid, url, status,
created_at. -/
def Photos.to_dict (p : Photos) : Nat × String × PhotoStatus × Nat :=
  (p.uuid, p.url, p.status, p.created_at)

/-- get_pending_photos_handler from web.py: the queried rows mapped through
to_dict. -/
def get_pending_photos_handler (photos : List Photos) : List (Nat × String × PhotoStatus × Nat) :=
  (get_pending_photos photos).map Photos.to_dict

/-- Whether an Except is a success. -/
def exceptOk {ε α : Type} : Except ε α → Bool
  | .ok _ => true
  | .error _ => false

/-- The fetch-failure condition as the specification words it, for comparison
with download_img: a non-success (not 200-class) status, an empty body, a
connection error, or a protocol-level error. -/
def spec_fetch_failure (resp : HttpOutcome) : Bool :=
  match resp with
  | .response code content => !(decide (200 ≤ code ∧ code < 300)) || (content.getD []).isEmpty
  | .connectionError => true
  | .httpError => true

/-- A transport oracle that always reports a connection error, with an image
environment that always fails: the all-failing concrete fixture. -/
def envFail : Env := ⟨fun _ => .connectionError, ⟨fun _ => none, false⟩⟩

/-- A transport oracle that always returns a 200 response with a one-byte
body that decodes as a 100 by 50 image, with working file I/O. -/
def envOk : Env := ⟨fun _ => .response 200 (some [7]), ⟨fun _ => some (100, 50), true⟩⟩

/-- A store with one pending photo of uuid 1. -/
def dbOne : DB := ⟨[⟨1, "u", .pending, 0⟩], []⟩

/-- A store with one completed photo of uuid 1. -/
def dbCompleted : DB := ⟨[⟨1, "u", .completed, 0⟩], []⟩

/-- An empty store. -/
def dbEmpty : DB := ⟨[], []⟩

/-- Updating the status of the rows with a given key commutes with looking
that key up: the lookup afterwards sees the updated row. -/
theorem find_update (ps : List Photos) (id : Nat) (s : PhotoStatus) :
    (ps.map (fun p => if p.uuid == id then { p with status := s } else p)).find?
        (fun p => p.uuid == id)
      = (ps.find? (fun p => p.uuid == id)).map (fun p => { p with status := s }) := by
  rw [List.find?_map]
  have hcong : ∀ l : List Photos,
      l.find? ((fun p => p.uuid == id) ∘ (fun p => if p.uuid == id then
        { p with status := s } else p)) = l.find? (fun p => p.uuid == id) := by
    intro l
    induction l with
    | nil => rfl
    | cons p l ih =>
        cases hb : (p.uuid == id)
        · simpa [List.find?, Function.comp, hb] using ih
        · simp [List.find?, Function.comp, hb]
  rw [hcong]
  cases hfind : ps.find? (fun p => p.uuid == id) with
  | none => rfl
  | some q =>
      have hq : q.uuid = id := by simpa using List.find?_some hfind
      simp [hq]

/-- DB.getPhoto after DB.setStatus on the same key. -/
theorem getPhoto_setStatus (db : DB) (id : Nat) (s : PhotoStatus) :
    (db.setStatus id s).getPhoto id = (db.getPhoto id).map (fun p => { p with status := s }) :=
  find_update db.photos id s

/-- DB.setStatus leaves the thumbnails table alone. -/
theorem setStatus_thumbnails (db : DB) (id : Nat) (s : PhotoStatus) :
    (db.setStatus id s).thumbnails = db.thumbnails := rfl

/-- DB.addThumbnail leaves the photos table alone. -/
theorem getPhoto_addThumbnail (db : DB) (t : PhotoThumbnails) (id : Nat) :
    (db.addThumbnail t).getPhoto id = db.getPhoto id := rfl

/-- A number is below the next multiple of the divisor. -/
theorem lt_div_succ_mul (a b : Nat) (hb : 0 < b) : a < (a / b + 1) * b := by
  calc a = b * (a / b) + a % b := (Nat.div_add_mod a b).symm
  _ < b * (a / b) + b := Nat.add_lt_add_left (Nat.mod_lt a hb) _
  _ = (a / b + 1) * b := by ring

/-- Case characterization of the PIL thumbnail dimension computation at the
320 by 320 bound. -/
theorem pil_thumbnail_size_eq (w h : Nat) :
    pil_thumbnail_size (320, 320) (w, h) =
      if w > 320 then
        (if max (h * 320 / w) 1 > 320 then (max (320 * 320 / max (h * 320 / w) 1) 1, 320)
         else (320, max (h * 320 / w) 1))
      else (if h > 320 then (max (w * 320 / h) 1, 320) else (w, h)) := by
  dsimp only [pil_thumbnail_size]
  by_cases h1 : w > 320
  · rw [if_pos h1, if_pos h1]
  · rw [if_neg h1, if_neg h1]

/-- Both produced dimensions fit the 320 by 320 bound. -/
theorem pil_thumbnail_size_le (w h : Nat) :
    (pil_thumbnail_size (320, 320) (w, h)).1 ≤ 320 ∧
      (pil_thumbnail_size (320, 320) (w, h)).2 ≤ 320 := by
  rw [pil_thumbnail_size_eq]
  by_cases h1 : w > 320
  · rw [if_pos h1]
    by_cases h2 : max (h * 320 / w) 1 > 320
    · rw [if_pos h2]
      refine ⟨Nat.max_le.mpr ⟨?_, by norm_num⟩, le_refl 320⟩
      have hlt : (320 : Nat) * 320 < (max (h * 320 / w) 1) * 320 := by
        calc (320 : Nat) * 320 < 321 * 320 := by norm_num
        _ ≤ (max (h * 320 / w) 1) * 320 := Nat.mul_le_mul_right 320 h2
      exact le_of_lt (Nat.div_lt_of_lt_mul hlt)
    · rw [if_neg h2]
      exact ⟨le_refl 320, le_of_not_lt h2⟩
  · rw [if_neg h1]
    by_cases h2 : h > 320
    · rw [if_pos h2]
      refine ⟨Nat.max_le.mpr ⟨?_, by norm_num⟩, le_refl 320⟩
      have hlt : w * 320 < h * 320 := by
        calc w * 320 ≤ 320 * 320 := Nat.mul_le_mul_right 320 (le_of_not_lt h1)
        _ < h * 320 := (Nat.mul_lt_mul_right (by norm_num)).mpr h2
      exact le_of_lt (Nat.div_lt_of_lt_mul hlt)
    · rw [if_neg h2]
      exact ⟨le_of_not_lt h1, le_of_not_lt h2⟩

/-- A source that already fits the bound is kept at its exact dimensions: no
upscaling. -/
theorem pil_thumbnail_size_no_upscale (w h : Nat) (hw : w ≤ 320) (hh : h ≤ 320) :
    pil_thumbnail_size (320, 320) (w, h) = (w, h) := by
  rw [pil_thumbnail_size_eq, if_neg (not_lt.mpr hw), if_neg (not_lt.mpr hh)]

/-- Aspect ratio is preserved within rounding: unless a dimension was clamped
to the 1-pixel floor, the produced and source cross products differ by at
most the sum of the source dimensions. -/
theorem pil_thumbnail_size_aspect (w h tw th : Nat) (hw : 1 ≤ w) (hh : 1 ≤ h)
    (ht : pil_thumbnail_size (320, 320) (w, h) = (tw, th)) :
    tw = 1 ∨ th = 1 ∨ (tw * h ≤ w * th + w + h ∧ w * th ≤ tw * h + w + h) := by
  rw [pil_thumbnail_size_eq] at ht
  have hw0 : 0 < w := hw
  have hh0 : 0 < h := hh
  by_cases h1 : w > 320
  · rw [if_pos h1] at ht
    by_cases h2 : max (h * 320 / w) 1 > 320
    · rw [if_pos h2] at ht
      have hy : 320 < h * 320 / w := by
        rcases le_or_lt (h * 320 / w) 320 with hc | hc
        · exact absurd h2 (not_lt.mpr (Nat.max_le.mpr ⟨hc, by norm_num⟩))
        · exact hc
      rw [max_eq_left (le_trans (by norm_num) (le_of_lt hy))] at ht
      rw [Prod.mk.injEq] at ht
      obtain ⟨htw, hth⟩ := ht
      subst htw
      subst hth
      rcases Nat.eq_zero_or_pos (320 * 320 / (h * 320 / w)) with hz | hz
      · left
        rw [hz]
        decide
      · right; right
        rw [max_eq_left hz]
        have f1 : (h * 320 / w) * w ≤ h * 320 := Nat.div_mul_le_self (h * 320) w
        have f2 : h * 320 < ((h * 320 / w) + 1) * w := lt_div_succ_mul (h * 320) w hw0
        have f3 : (320 * 320 / (h * 320 / w)) * (h * 320 / w) ≤ 320 * 320 :=
          Nat.div_mul_le_self (320 * 320) (h * 320 / w)
        have f4 : 320 * 320 < ((320 * 320 / (h * 320 / w)) + 1) * (h * 320 / w) :=
          lt_div_succ_mul (320 * 320) (h * 320 / w) (lt_trans (by norm_num) hy)
        have f5 : 320 * 320 / (h * 320 / w) ≤ 319 := by
          have hlt : (320 : Nat) * 320 < (h * 320 / w) * 320 := by
            calc (320 : Nat) * 320 < 321 * 320 := by norm_num
            _ ≤ (h * 320 / w) * 320 := Nat.mul_le_mul_right 320 hy
          exact Nat.lt_succ_iff.mp (Nat.div_lt_of_lt_mul hlt)
        constructor
        · have key : 320 * ((320 * 320 / (h * 320 / w)) * h) < 320 * (321 * w) := by
            calc 320 * ((320 * 320 / (h * 320 / w)) * h)
                = (320 * 320 / (h * 320 / w)) * (h * 320) := by ring
            _ ≤ (320 * 320 / (h * 320 / w)) * (((h * 320 / w) + 1) * w) :=
                Nat.mul_le_mul_left _ (le_of_lt f2)
            _ = ((320 * 320 / (h * 320 / w)) * (h * 320 / w)) * w
                  + (320 * 320 / (h * 320 / w)) * w := by ring
            _ ≤ (320 * 320) * w + 319 * w :=
                Nat.add_le_add (Nat.mul_le_mul_right w f3) (Nat.mul_le_mul_right w f5)
            _ = 102719 * w := by ring
            _ < 102720 * w := (Nat.mul_lt_mul_right hw0).mpr (by norm_num)
            _ = 320 * (321 * w) := by ring
          have key2 : (320 * 320 / (h * 320 / w)) * h < 321 * w :=
            Nat.lt_of_mul_lt_mul_left key
          calc (320 * 320 / (h * 320 / w)) * h ≤ 321 * w := le_of_lt key2
          _ = w * 320 + w := by ring
          _ ≤ w * 320 + w + h := Nat.le_add_right _ _
        · have key : 320 * (320 * w) < 320 * (((320 * 320 / (h * 320 / w)) + 1) * h) := by
            calc 320 * (320 * w) = (320 * 320) * w := by ring
            _ < (((320 * 320 / (h * 320 / w)) + 1) * (h * 320 / w)) * w :=
                (Nat.mul_lt_mul_right hw0).mpr f4
            _ = ((320 * 320 / (h * 320 / w)) + 1) * ((h * 320 / w) * w) := by ring
            _ ≤ ((320 * 320 / (h * 320 / w)) + 1) * (h * 320) := Nat.mul_le_mul_left _ f1
            _ = 320 * (((320 * 320 / (h * 320 / w)) + 1) * h) := by ring
          have key2 : 320 * w < ((320 * 320 / (h * 320 / w)) + 1) * h :=
            Nat.lt_of_mul_lt_mul_left key
          calc w * 320 = 320 * w := by ring
          _ ≤ (320 * 320 / (h * 320 / w)) * h + h := by
              have key3 : 320 * w ≤ ((320 * 320 / (h * 320 / w)) + 1) * h := le_of_lt key2
              calc 320 * w ≤ ((320 * 320 / (h * 320 / w)) + 1) * h := key3
              _ = (320 * 320 / (h * 320 / w)) * h + h := by ring
          _ ≤ ((320 * 320 / (h * 320 / w)) * h + h) + w := Nat.le_add_right _ _
          _ = (320 * 320 / (h * 320 / w)) * h + w + h := by ring
    · rw [if_neg h2] at ht
      rw [Prod.mk.injEq] at ht
      obtain ⟨htw, hth⟩ := ht
      subst htw
      subst hth
      rcases Nat.eq_zero_or_pos (h * 320 / w) with hz | hz
      · right; left
        rw [hz]
        decide
      · right; right
        rw [max_eq_left hz]
        have f1 : (h * 320 / w) * w ≤ h * 320 := Nat.div_mul_le_self (h * 320) w
        have f2 : h * 320 < ((h * 320 / w) + 1) * w := lt_div_succ_mul (h * 320) w hw0
        constructor
        · calc 320 * h = h * 320 := by ring
          _ ≤ (h * 320 / w) * w + w := by
              calc h * 320 ≤ ((h * 320 / w) + 1) * w := le_of_lt f2
              _ = (h * 320 / w) * w + w := by ring
          _ = w * (h * 320 / w) + w := by ring
          _ ≤ w * (h * 320 / w) + w + h := Nat.le_add_right _ _
        · calc w * (h * 320 / w) = (h * 320 / w) * w := by ring
          _ ≤ h * 320 := f1
          _ = 320 * h := by ring
          _ ≤ (320 * h + w) + h := by
              calc 320 * h ≤ 320 * h + w := Nat.le_add_right _ _
              _ ≤ (320 * h + w) + h := Nat.le_add_right _ _
          _ = 320 * h + w + h := by ring
  · rw [if_neg h1] at ht
    by_cases h2 : h > 320
    · rw [if_pos h2] at ht
      rw [Prod.mk.injEq] at ht
      obtain ⟨htw, hth⟩ := ht
      subst htw
      subst hth
      rcases Nat.eq_zero_or_pos (w * 320 / h) with hz | hz
      · left
        rw [hz]
        decide
      · right; right
        rw [max_eq_left hz]
        have f1 : (w * 320 / h) * h ≤ w * 320 := Nat.div_mul_le_self (w * 320) h
        have f2 : w * 320 < ((w * 320 / h) + 1) * h := lt_div_succ_mul (w * 320) h hh0
        constructor
        · calc (w * 320 / h) * h ≤ w * 320 := f1
          _ ≤ (w * 320 + w) + h := by
              calc w * 320 ≤ w * 320 + w := Nat.le_add_right _ _
              _ ≤ (w * 320 + w) + h := Nat.le_add_right _ _
          _ = w * 320 + w + h := by ring
        · have step1 : w * 320 ≤ (w * 320 / h) * h + h := by
            calc w * 320 ≤ ((w * 320 / h) + 1) * h := le_of_lt f2
            _ = (w * 320 / h) * h + h := by ring
          calc w * 320 ≤ (w * 320 / h) * h + h := step1
          _ ≤ ((w * 320 / h) * h + h) + w := Nat.le_add_right _ _
          _ = (w * 320 / h) * h + w + h := by ring
    · rw [if_neg h2] at ht
      rw [Prod.mk.injEq] at ht
      obtain ⟨htw, hth⟩ := ht
      subst htw
      subst hth
      right; right
      constructor
      · calc w * h ≤ w * h + w := Nat.le_add_right _ _
        _ ≤ (w * h + w) + h := Nat.le_add_right _ _
      · calc w * h ≤ w * h + w := Nat.le_add_right _ _
        _ ≤ (w * h + w) + h := Nat.le_add_right _ _

/-- Folding big-endian base-256 digits of a number rebuilds the number modulo
the base power. -/
theorem foldl_digits (k : Nat) : ∀ n : Nat,
    (((List.range k).map (fun i => n / 256 ^ (k - 1 - i) % 256)).foldl
      (fun acc b => acc * 256 + b) 0) = n % 256 ^ k := by
  induction k with
  | zero =>
      intro n
      simp [Nat.mod_one]
  | succ k ih =>
      intro n
      rw [List.range_succ, List.map_append, List.foldl_append]
      have hmap : (List.range k).map (fun i => n / 256 ^ (k + 1 - 1 - i) % 256)
          = (List.range k).map (fun i => (n / 256) / 256 ^ (k - 1 - i) % 256) := by
        apply List.map_congr_left
        intro i hi
        have hik : i < k := List.mem_range.mp hi
        rw [show k + 1 - 1 - i = k - i from by omega]
        rw [show (256 : Nat) ^ (k - i) = 256 * 256 ^ (k - 1 - i) from by
          rw [show k - i = (k - 1 - i) + 1 from by omega, pow_succ]
          ring]
        rw [← Nat.div_div_eq_div_mul]
      rw [hmap, ih (n / 256)]
      simp only [List.map_cons, List.map_nil, List.foldl_cons, List.foldl_nil]
      rw [show k + 1 - 1 - k = 0 from by omega, pow_zero, Nat.div_one]
      rw [show (256 : Nat) ^ (k + 1) = 256 * 256 ^ k from by rw [pow_succ]; ring]
      rw [Nat.mod_mul]
      ring

/-- The wire encoding is 16 bytes long. -/
theorem uuid_bytes_length (n : Nat) : (uuid_bytes n).length = 16 := by
  simp [uuid_bytes]

/-- Decoding the 16-byte wire encoding of a 128-bit identifier restores the
identifier. -/
theorem uuid_roundtrip (n : Nat) (hn : n < 2 ^ 128) :
    uuid_from_bytes (uuid_bytes n) = Except.ok n := by
  have hlen : (uuid_bytes n).length = 16 := uuid_bytes_length n
  have hfold := foldl_digits 16 n
  have hbytes : (List.range 16).map (fun i => n / 256 ^ (16 - 1 - i) % 256) = uuid_bytes n := by
    unfold uuid_bytes
    apply List.map_congr_left
    intro i _
    norm_num
  rw [hbytes] at hfold
  have hmod : n % 256 ^ 16 = n := by
    apply Nat.mod_eq_of_lt
    have h2 : (256 : Nat) ^ 16 = 2 ^ 128 := by norm_num
    rw [h2]
    exact hn
  unfold uuid_from_bytes
  rw [if_pos hlen, hfold, hmod]

/-- One-step unfolding of the consumer loop on a delivered message. -/
theorem consumer_step_cons (env : Env) (db : DB) (body : List Nat) (rest : List (List Nat)) :
    init_message_consumer env db (body :: rest) =
      match uuid_from_bytes body with
      | .error e => ⟨[], [], db, some e⟩
      | .ok pid =>
          match (process_photo_message env db pid).result with
          | .error e =>
              ⟨[], [pid], (process_photo_message env db pid).finalDb, some (.unhandled e)⟩
          | .ok _ =>
              ⟨body ::
                  (init_message_consumer env (process_photo_message env db pid).finalDb rest).acked,
                pid ::
                  (init_message_consumer env (process_photo_message env db pid).finalDb rest).invoked,
                (init_message_consumer env (process_photo_message env db pid).finalDb rest).db,
                (init_message_consumer env (process_photo_message env db pid).finalDb rest).err⟩ :=
  rfl

/-- The acknowledged messages are a prefix of the delivered ones, and every
message is acknowledged exactly when no error escaped the loop. -/
theorem consumer_acked_iff (env : Env) (msgs : List (List Nat)) : ∀ db : DB,
    (init_message_consumer env db msgs).acked <+: msgs ∧
      ((init_message_consumer env db msgs).err = none ↔
        (init_message_consumer env db msgs).acked = msgs) := by
  induction msgs with
  | nil =>
      intro db
      exact ⟨List.prefix_refl _, by simp [init_message_consumer]⟩
  | cons body rest ih =>
      intro db
      cases hdec : uuid_from_bytes body with
      | error e =>
          simp only [consumer_step_cons, hdec]
          refine ⟨List.nil_prefix, ?_, ?_⟩
          · intro herr
            exact absurd herr (by simp)
          · intro heq
            exact absurd heq (by simp)
      | ok pid =>
          cases hres : (process_photo_message env db pid).result with
          | error e =>
              simp only [consumer_step_cons, hdec, hres]
              refine ⟨List.nil_prefix, ?_, ?_⟩
              · intro herr
                exact absurd herr (by simp)
              · intro heq
                exact absurd heq (by simp)
          | ok u =>
              obtain ⟨ihpre, ihiff⟩ := ih (process_photo_message env db pid).finalDb
              simp only [consumer_step_cons, hdec, hres]
              refine ⟨?_, ?_, ?_⟩
              · exact List.cons_prefix_cons.mpr ⟨rfl, ihpre⟩
              · intro herr
                rw [ihiff.mp herr]
              · intro heq
                apply ihiff.mpr
                injection heq

/-- Every identifier the orchestrator is invoked for came from a delivered
body of exactly 16 bytes that decoded to it. -/
theorem consumer_invoked_sound (env : Env) (msgs : List (List Nat)) : ∀ db : DB,
    ∀ pid ∈ (init_message_consumer env db msgs).invoked,
      ∃ b ∈ msgs, b.length = 16 ∧ uuid_from_bytes b = Except.ok pid := by
  induction msgs with
  | nil =>
      intro db pid hpid
      simp [init_message_consumer] at hpid
  | cons body rest ih =>
      intro db pid hpid
      cases hdec : uuid_from_bytes body with
      | error e =>
          rw [consumer_step_cons] at hpid
          simp only [hdec] at hpid
          simp at hpid
      | ok pid0 =>
          have hlen : body.length = 16 := by
            by_contra hne
            rw [uuid_from_bytes, if_neg hne] at hdec
            cases hdec
          cases hres : (process_photo_message env db pid0).result with
          | error e =>
              rw [consumer_step_cons] at hpid
              simp only [hdec, hres] at hpid
              simp at hpid
              subst hpid
              exact ⟨body, List.mem_cons_self _ _, hlen, hdec⟩
          | ok u =>
              rw [consumer_step_cons] at hpid
              simp only [hdec, hres] at hpid
              simp at hpid
              rcases hpid with hpid | hpid
              · subst hpid
                exact ⟨body, List.mem_cons_self _ _, hlen, hdec⟩
              · obtain ⟨b, hb, hbl, hbd⟩ :=
                  ih (process_photo_message env db pid0).finalDb pid hpid
                exact ⟨b, List.mem_cons_of_mem _ hb, hbl, hbd⟩

/-- One-step unfolding of the orchestrator when the photo row exists. -/
theorem process_step_found (env : Env) (db : DB) (pid : Nat) (photo : Photos)
    (hp : db.getPhoto pid = some photo) :
    process_photo_message env db pid =
      (match download_img (env.http photo.url) with
      | .error e =>
          ⟨Except.error (.processPhotoError (.download e)),
            [db.setStatus pid .processing,
              (db.setStatus pid .processing).setStatus pid .failed],
            (db.setStatus pid .processing).setStatus pid .failed⟩
      | .ok img_content =>
          match create_img_thumbnail env.img img_content pid with
          | .error e =>
              ⟨Except.error (.processPhotoError (.thumbnail e)),
                [db.setStatus pid .processing,
                  (db.setStatus pid .processing).setStatus pid .failed],
                (db.setStatus pid .processing).setStatus pid .failed⟩
          | .ok t =>
              ⟨Except.ok (),
                [db.setStatus pid .processing,
                  (db.setStatus pid .processing).addThumbnail t,
                  ((db.setStatus pid .processing).addThumbnail t).setStatus pid .completed],
                ((db.setStatus pid .processing).addThumbnail t).setStatus pid .completed⟩) := by
  unfold process_photo_message
  rw [hp]

/-- C6: for a photo identifier with no matching record, process_photo_message
raises NoPhotoRecordFoundError and performs no further action: no commit, no
status write, no thumbnail insertion, and the stored state is unchanged. -/
theorem C6_record_not_found_no_action (env : Env) (db : DB) (pid : Nat)
    (hp : db.getPhoto pid = none) :
    process_photo_message env db pid =
      ⟨Except.error ProcessErr.noPhotoRecordFound, [], db⟩ := by
  unfold process_photo_message
  rw [hp]

/-- Witness for C6: the empty store holds no record with key 7, so the run
commits nothing and leaves the store unchanged. -/
theorem C6_record_not_found_witness :
    (process_photo_message envFail dbEmpty 7).commits = [] ∧
      (process_photo_message envFail dbEmpty 7).finalDb = dbEmpty :=
  ⟨congrArg RunResult.commits (C6_record_not_found_no_action envFail dbEmpty 7 rfl),
    congrArg RunResult.finalDb (C6_record_not_found_no_action envFail dbEmpty 7 rfl)⟩

/-- C5 counterexample: a photo whose status is completed is transitioned out
of completed by processing it: the first committed state of the run has
status processing and the final committed state has status failed. -/
theorem C5_completed_counterexample :
    ((process_photo_message envFail dbCompleted 1).commits.head?.bind
        (fun d => (d.getPhoto 1).map Photos.status)) = some PhotoStatus.processing ∧
      ((process_photo_message envFail dbCompleted 1).finalDb.getPhoto 1).map Photos.status
        = some PhotoStatus.failed := by
  decide

/-- C5 (amended): processing a dequeued identifier with a matching record
unconditionally commits status processing as its first write, whatever the
prior status was: pending to processing, tolerating an already-processing
row, but also transitioning a completed row out of completed. -/
theorem C5_first_commit_is_processing (env : Env) (db : DB) (pid : Nat) (photo : Photos)
    (hp : db.getPhoto pid = some photo) :
    (process_photo_message env db pid).commits.head?
        = some (db.setStatus pid PhotoStatus.processing) ∧
      ((db.setStatus pid PhotoStatus.processing).getPhoto pid).map Photos.status
        = some PhotoStatus.processing := by
  constructor
  · rw [process_step_found env db pid photo hp]
    cases download_img (env.http photo.url) with
    | error e => rfl
    | ok img_content =>
        dsimp only
        cases create_img_thumbnail env.img img_content pid with
        | error e => rfl
        | ok t => rfl
  · rw [getPhoto_setStatus, hp]
    rfl

/-- Witness for the amended C5 at the completed fixture: the first commit is
the unconditional processing write. -/
theorem C5_processing_witness :
    (process_photo_message envFail dbCompleted 1).commits.head?
      = some (dbCompleted.setStatus 1 PhotoStatus.processing) :=
  (C5_first_commit_is_processing envFail dbCompleted 1 ⟨1, "u", .completed, 0⟩ rfl).1

/-- C3 counterexample: on a message whose processing raises, the loop does
not acknowledge it and the error escapes the loop instead of being caught. -/
theorem C3_loop_counterexample :
    ¬ ((init_message_consumer envFail dbEmpty [List.replicate 16 0]).acked
          = [List.replicate 16 0] ∧
        (init_message_consumer envFail dbEmpty [List.replicate 16 0]).err = none) := by
  decide

/-- C3 (amended): the loop acknowledges a message only after
process_photo_message returns successfully; the acknowledged messages are a
prefix of the delivered ones, and every delivered message is acknowledged
exactly when no error escaped the loop — a raised error propagates uncaught,
so the failing message is never acknowledged and the loop stops. -/
theorem C3_ack_only_after_success (env : Env) (db : DB) (msgs : List (List Nat)) :
    (init_message_consumer env db msgs).acked <+: msgs ∧
      ((init_message_consumer env db msgs).err = none ↔
        (init_message_consumer env db msgs).acked = msgs) :=
  consumer_acked_iff env msgs db

/-- C10: a delivered body that is not exactly 16 bytes makes the decoding
step raise an uncaught ValueError: nothing is acknowledged, the orchestrator
is never invoked, the store is untouched; and in any run, every identifier
the orchestrator was invoked for came from a body of exactly 16 bytes. -/
theorem C10_short_body_never_acked (env : Env) (db : DB) (body : List Nat)
    (rest : List (List Nat)) (hlen : body.length ≠ 16) :
    init_message_consumer env db (body :: rest)
        = ⟨[], [], db, some (ConsumeErr.valueError body)⟩ ∧
      (∀ msgs : List (List Nat), ∀ pid ∈ (init_message_consumer env db msgs).invoked,
        ∃ b ∈ msgs, b.length = 16 ∧ uuid_from_bytes b = Except.ok pid) := by
  constructor
  · rw [consumer_step_cons]
    simp only [uuid_from_bytes, if_neg hlen]
  · intro msgs pid hpid
    exact consumer_invoked_sound env msgs db pid hpid

/-- Witness for C10: a one-byte body halts the loop unacknowledged. -/
theorem C10_short_body_witness :
    init_message_consumer envFail dbEmpty [[0]]
      = ⟨[], [], dbEmpty, some (ConsumeErr.valueError [0])⟩ :=
  (C10_short_body_never_acked envFail dbEmpty [0] [] (by decide)).1

/-- C2: when the fetch or the thumbnail derivation raises, the run commits
status processing then status failed and nothing else, creates no
PhotoThumbnails row, and raises ProcessPhotoError wrapping the original
cause. -/
theorem C2_failure_commits_failed (env : Env) (db : DB) (pid : Nat) (photo : Photos)
    (hp : db.getPhoto pid = some photo)
    (hfail : exceptOk (download_img (env.http photo.url)) = false ∨
      (∃ bs, download_img (env.http photo.url) = Except.ok bs ∧
        exceptOk (create_img_thumbnail env.img bs pid) = false)) :
    (process_photo_message env db pid).finalDb.thumbnails = db.thumbnails ∧
      ((process_photo_message env db pid).finalDb.getPhoto pid).map Photos.status
        = some PhotoStatus.failed ∧
      (process_photo_message env db pid).commits
        = [db.setStatus pid PhotoStatus.processing,
            (db.setStatus pid PhotoStatus.processing).setStatus pid PhotoStatus.failed] ∧
      (∀ e, download_img (env.http photo.url) = Except.error e →
        (process_photo_message env db pid).result
          = Except.error (ProcessErr.processPhotoError (PipelineErr.download e))) ∧
      (∀ bs e, download_img (env.http photo.url) = Except.ok bs →
        create_img_thumbnail env.img bs pid = Except.error e →
        (process_photo_message env db pid).result
          = Except.error (ProcessErr.processPhotoError (PipelineErr.thumbnail e))) := by
  rw [process_step_found env db pid photo hp]
  cases hd : download_img (env.http photo.url) with
  | error e =>
      dsimp only
      refine ⟨rfl, ?_, rfl, ?_, ?_⟩
      · rw [getPhoto_setStatus, getPhoto_setStatus, hp]
        rfl
      · intro e2 he2
        injection he2 with he3
        rw [he3]
      · intro bs e2 hok
        cases hok
  | ok bs0 =>
      dsimp only
      rcases hfail with habs | ⟨bs1, hbs1, hcf⟩
      · rw [hd] at habs
        cases habs
      · rw [hd] at hbs1
        injection hbs1 with hbs2
        subst hbs2
        cases hc : create_img_thumbnail env.img bs0 pid with
        | error e =>
            dsimp only
            refine ⟨rfl, ?_, rfl, ?_, ?_⟩
            · rw [getPhoto_setStatus, getPhoto_setStatus, hp]
              rfl
            · intro e2 he2
              cases he2
            · intro bs2 e2 hok2 hc2
              injection hok2 with hok3
              subst hok3
              rw [hc] at hc2
        | ok t =>
            rw [hc] at hcf
            cases hcf

/-- Witness for C2: the all-failing transport yields a failed status and no
thumbnail row. -/
theorem C2_failure_witness :
    (process_photo_message envFail dbOne 1).finalDb.thumbnails = dbOne.thumbnails ∧
      ((process_photo_message envFail dbOne 1).finalDb.getPhoto 1).map Photos.status
        = some PhotoStatus.failed :=
  ⟨(C2_failure_commits_failed envFail dbOne 1 ⟨1, "u", .pending, 0⟩ rfl (Or.inl rfl)).1,
    (C2_failure_commits_failed envFail dbOne 1 ⟨1, "u", .pending, 0⟩ rfl (Or.inl rfl)).2.1⟩

/-- C1: a run whose fetch succeeds and whose bytes decode as an image ends
with status completed and exactly one PhotoThumbnails row referencing the
photo; the stored dimensions fit the 320 by 320 bound, a source already
within the bound is kept at its exact dimensions (no upscaling), and aspect
ratio is preserved within rounding. -/
theorem C1_success_completed_bounded (env : Env) (db : DB) (pid : Nat) (photo : Photos)
    (bs : List Nat) (w h : Nat)
    (hp : db.getPhoto pid = some photo)
    (hd : download_img (env.http photo.url) = Except.ok bs)
    (hdec : env.img.decode bs = some (w, h))
    (hio : env.img.ioOk = true)
    (hw : 1 ≤ w) (hh : 1 ≤ h)
    (hfresh : db.thumbnails.countP (fun t => t.photo_uuid == pid) = 0) :
    (process_photo_message env db pid).result = Except.ok () ∧
      ((process_photo_message env db pid).finalDb.getPhoto pid).map Photos.status
        = some PhotoStatus.completed ∧
      (process_photo_message env db pid).finalDb.thumbnails.countP
          (fun t => t.photo_uuid == pid) = 1 ∧
      (∀ t ∈ (process_photo_message env db pid).finalDb.thumbnails, t.photo_uuid = pid →
        t.width ≤ 320 ∧ t.height ≤ 320 ∧
          (w ≤ 320 → h ≤ 320 → t.width = w ∧ t.height = h) ∧
          (t.width = 1 ∨ t.height = 1 ∨
            (t.width * h ≤ w * t.height + w + h ∧
              w * t.height ≤ t.width * h + w + h))) := by
  have hc : create_img_thumbnail env.img bs pid =
      Except.ok ⟨pid, (pil_thumbnail_size (320, 320) (w, h)).1,
        (pil_thumbnail_size (320, 320) (w, h)).2, thumbnail_url_of pid⟩ := by
    unfold create_img_thumbnail
    rw [hdec, hio]
    rfl
  rw [process_step_found env db pid photo hp, hd]
  dsimp only
  rw [hc]
  dsimp only
  refine ⟨rfl, ?_, ?_, ?_⟩
  · rw [getPhoto_setStatus, getPhoto_addThumbnail, getPhoto_setStatus, hp]
    rfl
  · show (db.thumbnails ++ [_]).countP _ = 1
    rw [List.countP_append, hfresh]
    simp
  · intro t ht htp
    have hmem : t ∈ db.thumbnails ++
        [(⟨pid, (pil_thumbnail_size (320, 320) (w, h)).1,
          (pil_thumbnail_size (320, 320) (w, h)).2, thumbnail_url_of pid⟩ :
            PhotoThumbnails)] := ht
    rcases List.mem_append.mp hmem with hold | hnew
    · have hnot := (List.countP_eq_zero.mp hfresh) t hold
      exact absurd (by simpa using htp) hnot
    · have hteq : t = ⟨pid, (pil_thumbnail_size (320, 320) (w, h)).1,
          (pil_thumbnail_size (320, 320) (w, h)).2, thumbnail_url_of pid⟩ := by
        simpa using hnew
      subst hteq
      refine ⟨(pil_thumbnail_size_le w h).1, (pil_thumbnail_size_le w h).2, ?_, ?_⟩
      · intro hwle hhle
        constructor
        · show (pil_thumbnail_size (320, 320) (w, h)).1 = w
          rw [pil_thumbnail_size_no_upscale w h hwle hhle]
        · show (pil_thumbnail_size (320, 320) (w, h)).2 = h
          rw [pil_thumbnail_size_no_upscale w h hwle hhle]
      · exact pil_thumbnail_size_aspect w h
          (pil_thumbnail_size (320, 320) (w, h)).1
          (pil_thumbnail_size (320, 320) (w, h)).2 hw hh rfl

/-- Witness for C1: the working fixture with a 100 by 50 source ends
completed with exactly one thumbnail row for the photo. -/
theorem C1_success_witness :
    ((process_photo_message envOk dbOne 1).finalDb.getPhoto 1).map Photos.status
        = some PhotoStatus.completed ∧
      (process_photo_message envOk dbOne 1).finalDb.thumbnails.countP
          (fun t => t.photo_uuid == 1) = 1 :=
  ⟨(C1_success_completed_bounded envOk dbOne 1 ⟨1, "u", .pending, 0⟩ [7] 100 50 rfl rfl rfl
      rfl (by norm_num) (by norm_num) rfl).2.1,
    (C1_success_completed_bounded envOk dbOne 1 ⟨1, "u", .pending, 0⟩ [7] 100 50 rfl rfl rfl
      rfl (by norm_num) (by norm_num) rfl).2.2.1⟩

/-- C9: in a successful run the PhotoThumbnails row is added and committed
strictly before the completed status is committed, and no committed state of
the run shows status completed without the thumbnail row already present. -/
theorem C9_thumbnail_before_completed (env : Env) (db : DB) (pid : Nat)
    (hok : (process_photo_message env db pid).result = Except.ok ()) :
    ∃ t : PhotoThumbnails, t.photo_uuid = pid ∧
      (process_photo_message env db pid).commits
        = [db.setStatus pid PhotoStatus.processing,
            (db.setStatus pid PhotoStatus.processing).addThumbnail t,
            ((db.setStatus pid PhotoStatus.processing).addThumbnail t).setStatus pid
              PhotoStatus.completed] ∧
      (∀ d ∈ (process_photo_message env db pid).commits,
        ((d.getPhoto pid).map Photos.status = some PhotoStatus.completed) →
          ∃ u ∈ d.thumbnails, u.photo_uuid = pid) := by
  cases hp : db.getPhoto pid with
  | none =>
      rw [C6_record_not_found_no_action env db pid hp] at hok
      cases hok
  | some photo =>
      rw [process_step_found env db pid photo hp] at hok ⊢
      cases hd : download_img (env.http photo.url) with
      | error e =>
          rw [hd] at hok
          dsimp only at hok
          cases hok
      | ok bsv =>
          rw [hd] at hok
          dsimp only at hok ⊢
          cases hc : create_img_thumbnail env.img bsv pid with
          | error e =>
              rw [hc] at hok
              dsimp only at hok
              cases hok
          | ok t =>
              dsimp only at hok ⊢
              have htpid : t.photo_uuid = pid := by
                unfold create_img_thumbnail at hc
                cases hdec : env.img.decode bsv with
                | none =>
                    rw [hdec] at hc
                    cases hc
                | some dims =>
                    rw [hdec] at hc
                    dsimp only at hc
                    by_cases hio : env.img.ioOk = true
                    · rw [if_pos hio] at hc
                      injection hc with hceq
                      rw [← hceq]
                    · rw [if_neg hio] at hc
                      cases hc
              refine ⟨t, htpid, rfl, ?_⟩
              intro d hmem hcomp
              have hd3 : d = db.setStatus pid PhotoStatus.processing ∨
                  d = (db.setStatus pid PhotoStatus.processing).addThumbnail t ∨
                  d = ((db.setStatus pid PhotoStatus.processing).addThumbnail t).setStatus
                    pid PhotoStatus.completed := by
                simpa using hmem
              rcases hd3 with hd3 | hd3 | hd3
              · subst hd3
                rw [getPhoto_setStatus, hp] at hcomp
                simp at hcomp
              · subst hd3
                rw [getPhoto_addThumbnail, getPhoto_setStatus, hp] at hcomp
                simp at hcomp
              · subst hd3
                refine ⟨t, ?_, htpid⟩
                show t ∈ db.thumbnails ++ [t]
                simp

/-- Witness for C9: the successful fixture commits exactly three states. -/
theorem C9_order_witness :
    (process_photo_message envOk dbOne 1).commits.length = 3 := by
  obtain ⟨t, ht, hcommits, hinv⟩ := C9_thumbnail_before_completed envOk dbOne 1 rfl
  rw [hcommits]
  rfl

/-- C4 counterexample: a 200 response with an empty body is accepted by
download_img although the specification failure condition calls it a
failure, and a 201 (200-class) response is rejected although the
specification condition calls it a success. -/
theorem C4_download_counterexample :
    exceptOk (download_img (HttpOutcome.response 200 (some []))) = true ∧
      spec_fetch_failure (HttpOutcome.response 200 (some [])) = true ∧
      exceptOk (download_img (HttpOutcome.response 201 (some [5]))) = false ∧
      spec_fetch_failure (HttpOutcome.response 201 (some [5])) = false := by
  decide

/-- C4 (amended): download_img raises exactly when the status is not 200,
the body is absent, or a connection or protocol error occurred; a present
body with status exactly 200 — even an empty one — is returned whole. -/
theorem C4_download_exact_condition (resp : HttpOutcome) :
    (∀ bs, resp = HttpOutcome.response 200 (some bs) → download_img resp = Except.ok bs) ∧
      ((∀ bs, resp ≠ HttpOutcome.response 200 (some bs)) →
        exceptOk (download_img resp) = false) := by
  constructor
  · intro bs hbs
    subst hbs
    rfl
  · intro hne
    cases resp with
    | response code content =>
        cases content with
        | none =>
            unfold download_img
            dsimp only
            rw [if_pos (Or.inr rfl)]
            rfl
        | some bs =>
            have hcode : code ≠ 200 := by
              intro hc
              exact hne bs (by rw [hc])
            unfold download_img
            dsimp only
            rw [if_pos (Or.inl hcode)]
            rfl
    | connectionError => rfl
    | httpError => rfl

/-- C7: process_photos publishes one message per identifier, in input order,
each body the canonical 16-byte encoding of the identifier, and the consumer
decoding step restores the identifier from any such body. -/
theorem C7_enqueue_order_roundtrip (uuids : List Nat)
    (hbound : ∀ id ∈ uuids, id < 2 ^ 128) :
    (process_photos uuids).length = uuids.length ∧
      (∀ i : Nat, (process_photos uuids)[i]? = (uuids[i]?).map uuid_bytes) ∧
      (∀ id ∈ uuids, (uuid_bytes id).length = 16 ∧
        uuid_from_bytes (uuid_bytes id) = Except.ok id) := by
  refine ⟨by simp [process_photos], ?_, ?_⟩
  · intro i
    simp [process_photos]
  · intro id hid
    exact ⟨uuid_bytes_length id, uuid_roundtrip id (hbound id hid)⟩

/-- Witness for C7 on a two-element batch. -/
theorem C7_enqueue_witness :
    (process_photos [0, 5]).length = 2 ∧
      uuid_from_bytes (uuid_bytes 5) = Except.ok 5 :=
  ⟨(C7_enqueue_order_roundtrip [0, 5] (by decide)).1,
    ((C7_enqueue_order_roundtrip [0, 5] (by decide)).2.2 5 (by simp)).2⟩

/-- C8: the pending query returns exactly the photos whose status is
pending, ordered by creation timestamp ascending, and the handler exposes
identifier, source url, status and created timestamp of each. -/
theorem C8_pending_query_sorted (photos : List Photos) :
    ((get_pending_photos photos).Perm
        (photos.filter (fun p => p.status == PhotoStatus.pending))) ∧
      List.Sorted byCreatedAt (get_pending_photos photos) ∧
      (∀ p ∈ get_pending_photos photos, p ∈ photos ∧ p.status = PhotoStatus.pending) ∧
      (∀ q ∈ get_pending_photos_handler photos, ∃ p ∈ photos,
        p.status = PhotoStatus.pending ∧ q = (p.uuid, p.url, p.status, p.created_at)) := by
  have hmem : ∀ p ∈ get_pending_photos photos, p ∈ photos ∧ p.status = PhotoStatus.pending := by
    intro p hp
    have hp2 : p ∈ photos.filter (fun p => p.status == PhotoStatus.pending) := by
      have := List.perm_insertionSort byCreatedAt
        (photos.filter (fun p => p.status == PhotoStatus.pending))
      exact this.mem_iff.mp hp
    obtain ⟨h1, h2⟩ := List.mem_filter.mp hp2
    exact ⟨h1, by simpa using h2⟩
  refine ⟨List.perm_insertionSort _ _, List.sorted_insertionSort _ _, hmem, ?_⟩
  intro q hq
  simp only [get_pending_photos_handler, List.mem_map] at hq
  obtain ⟨p, hp, hq2⟩ := hq
  obtain ⟨h1, h2⟩ := hmem p hp
  exact ⟨p, h1, h2, hq2.symm⟩

end WaldoPhotos
